import Mathlib

set_option maxRecDepth 100000

/-!
Shallow embedding of the OCI image registry server in
coopernetes/image-registry-go (src/main.go), together with theorems
settling the specification claims about it.

Bytes are modelled as natural numbers below 256 (`ByteSeq`), Go strings as
Lean `String`, and the filesystem as explicit state passed to each
operation.  Every definition is translated from the Go source; helper
primitives reproduce the semantics of the Go standard-library functions
the source calls (`strings.Contains`, `strings.Split`, `path.Join`,
`crypto/sha256`, ...).
-/

/-- Byte sequences: each element is a byte value (0..255). -/
abbrev ByteSeq := List Nat

/-! ## Go `strings` package primitives used by the source -/

/-- Decides whether the first list is a prefix of the second
(semantics of `strings.HasPrefix`). -/
def listIsPre : List Char → List Char → Bool
  | [], _ => true
  | _ :: _, [] => false
  | a :: as, b :: bs => a = b && listIsPre as bs

/-- Go `strings.TrimPrefix(s, pre)`: removes `pre` from the front of `s`
when present, otherwise returns `s` unchanged. -/
def goTrimPre (s pre : String) : String :=
  if listIsPre pre.toList s.toList then
    String.mk (s.toList.drop pre.toList.length)
  else s

/-- Decides whether `sub` occurs as a contiguous substring of the second
argument (semantics of `strings.Contains`). -/
def listContains (sub : List Char) : List Char → Bool
  | [] => sub.isEmpty
  | x :: xs => listIsPre sub (x :: xs) || listContains sub xs

/-- Go `strings.Contains(s, sub)`. -/
def goContains (s sub : String) : Bool :=
  listContains sub.toList s.toList

/-- Go `strings.HasSuffix(s, suffix)`. -/
def goHasSuffix (s suffix : String) : Bool :=
  listIsPre suffix.toList.reverse s.toList.reverse

/-- Go `strings.Count(s, "/")`: the source only ever counts the
single-character separator `/`, which equals the number of `/` characters. -/
def goCountSlash (s : String) : Nat := s.toList.count '/'

/-- Splits a character list at every occurrence of the character `c`
(semantics of `strings.Split` with a one-character separator). -/
def splitOnChar (c : Char) : List Char → List (List Char)
  | [] => [[]]
  | x :: xs =>
    match splitOnChar c xs with
    | r :: rs => if x = c then [] :: r :: rs else (x :: r) :: rs
    | [] => [[x]]

/-- Go `strings.Split(s, "/")`. -/
def goSplitSlash (s : String) : List String :=
  (splitOnChar '/' s.toList).map String.mk

/-- Worker for `splitOnList`, structurally recursive on a fuel counter so
that it reduces definitionally; the fuel is the input length, which
suffices because every step consumes at least one character (the zero
fuel case with a nonempty list is unreachable). -/
def splitOnListAux (sep : List Char) : Nat → List Char → List (List Char)
  | _, [] => [[]]
  | 0, l => [l]
  | fuel + 1, c :: rest =>
    if listIsPre sep (c :: rest) && !sep.isEmpty then
      [] :: splitOnListAux sep fuel (List.drop (sep.length - 1) rest)
    else
      match splitOnListAux sep fuel rest with
      | r :: rs => (c :: r) :: rs
      | [] => [[c]]

/-- Splits a character list around every non-overlapping, leftmost-first
occurrence of the (nonempty) separator `sep`, the semantics of Go
`strings.Split` with a multi-character separator. -/
def splitOnList (sep : List Char) (l : List Char) : List (List Char) :=
  splitOnListAux sep l.length l

/-- Go `strings.Split(s, sep)` for a general nonempty separator. -/
def goSplit (s sep : String) : List String :=
  (splitOnList sep.toList s.toList).map String.mk

/-- Joins string pieces with a separator (Go `strings.Join`). -/
def joinSep (sep : List Char) : List (List Char) → List Char
  | [] => []
  | [x] => x
  | x :: y :: xs => x ++ sep ++ joinSep sep (y :: xs)

/-- Go `strings.Join(parts, sep)`. -/
def goJoin (parts : List String) (sep : String) : String :=
  String.mk (joinSep sep.toList (parts.map String.toList))

/-! ## Go `path` package: `Clean` and `Join` -/

/-- Processes the `/`-separated segments of a path for `path.Clean`:
empty and `.` segments are dropped, `..` pops the previous segment (or is
kept when the path is not rooted and nothing can be popped, or dropped at
the root of a rooted path).  The accumulator holds segments in reverse. -/
def cleanStack (rooted : Bool) : List String → List String → List String
  | stack, [] => stack.reverse
  | stack, seg :: rest =>
    if seg = "" || seg = "." then cleanStack rooted stack rest
    else if seg = ".." then
      match stack with
      | [] => cleanStack rooted (if rooted then [] else [".."]) rest
      | top :: below =>
        if top = ".." then cleanStack rooted (".." :: top :: below) rest
        else cleanStack rooted below rest
    else cleanStack rooted (seg :: stack) rest

/-- Go `path.Clean`: the lexical cleaning of a slash-separated path. -/
def pathClean (p : String) : String :=
  if p = "" then "."
  else
    let rooted := listIsPre ['/'] p.toList
    let segs := cleanStack rooted [] (goSplitSlash p)
    let out := goJoin segs "/"
    if rooted then
      if out = "" then "/" else "/" ++ out
    else
      if out = "" then "." else out

/-- Go `path.Join(elems...)`: concatenates the elements with slashes
(skipping leading empties exactly as the Go loop does) and cleans the
result; all elements empty yields the empty string. -/
def pathJoin (elems : List String) : String :=
  let raw := elems.foldl
    (fun buf e =>
      if buf ≠ "" || e ≠ "" then
        (if buf ≠ "" then buf ++ "/" else "") ++ e
      else buf) ""
  if raw = "" then "" else pathClean raw

/-! ## SHA-256 (Go `crypto/sha256`), executable -/

/-- Truncates a natural number to a 32-bit word. -/
def w32 (n : Nat) : Nat := n % 4294967296

/-- Rotates a 32-bit word right by `n` bits. -/
def rotr32 (x n : Nat) : Nat := w32 ((x >>> n) ||| (x <<< (32 - n)))

/-- Bitwise complement of a 32-bit word. -/
def not32 (x : Nat) : Nat := 4294967295 - w32 x

/-- SHA-256 `Ch` function. -/
def shaCh (x y z : Nat) : Nat := (x &&& y) ^^^ (not32 x &&& z)

/-- SHA-256 `Maj` function. -/
def shaMaj (x y z : Nat) : Nat := (x &&& y) ^^^ (x &&& z) ^^^ (y &&& z)

/-- SHA-256 big sigma-0. -/
def bigSigma0 (x : Nat) : Nat := rotr32 x 2 ^^^ rotr32 x 13 ^^^ rotr32 x 22

/-- SHA-256 big sigma-1. -/
def bigSigma1 (x : Nat) : Nat := rotr32 x 6 ^^^ rotr32 x 11 ^^^ rotr32 x 25

/-- SHA-256 small sigma-0. -/
def smallSigma0 (x : Nat) : Nat := rotr32 x 7 ^^^ rotr32 x 18 ^^^ (x >>> 3)

/-- SHA-256 small sigma-1. -/
def smallSigma1 (x : Nat) : Nat := rotr32 x 17 ^^^ rotr32 x 19 ^^^ (x >>> 10)

/-- SHA-256 round constants (FIPS 180-4, written in decimal). -/
def sha256K : List Nat :=
  [1116352408, 1899447441, 3049323471, 3921009573,
   961987163, 1508970993, 2453635748, 2870763221,
   3624381080, 310598401, 607225278, 1426881987,
   1925078388, 2162078206, 2614888103, 3248222580,
   3835390401, 4022224774, 264347078, 604807628,
   770255983, 1249150122, 1555081692, 1996064986,
   2554220882, 2821834349, 2952996808, 3210313671,
   3336571891, 3584528711, 113926993, 338241895,
   666307205, 773529912, 1294757372, 1396182291,
   1695183700, 1986661051, 2177026350, 2456956037,
   2730485921, 2820302411, 3259730800, 3345764771,
   3516065817, 3600352804, 4094571909, 275423344,
   430227734, 506948616, 659060556, 883997877,
   958139571, 1322822218, 1537002063, 1747873779,
   1955562222, 2024104815, 2227730452, 2361852424,
   2428436474, 2756734187, 3204031479, 3329325298]

/-- SHA-256 initial hash state (FIPS 180-4, written in decimal). -/
def sha256H0 : List Nat :=
  [1779033703, 3144134277, 1013904242, 2773480762,
   1359893119, 2600822924, 528734635, 1541459225]

/-- Packs bytes into big-endian 32-bit words. -/
def bytesToWords : ByteSeq → List Nat
  | a :: b :: c :: d :: rest =>
    (a * 16777216 + b * 65536 + c * 256 + d) :: bytesToWords rest
  | _ => []

/-- SHA-256 message padding: appends `0x80`, zero bytes to reach 56 mod 64,
then the bit length as an 8-byte big-endian integer. -/
def padMessage (msg : ByteSeq) : ByteSeq :=
  let len := msg.length
  let zeros := (119 - len % 64) % 64
  let bitLen := len * 8
  msg ++ [0x80] ++ List.replicate zeros 0 ++
    (List.range 8).map (fun i => (bitLen >>> ((7 - i) * 8)) % 256)

/-- Splits a word list into 16-word blocks. -/
def toBlocks : List Nat → List (List Nat)
  | w0 :: w1 :: w2 :: w3 :: w4 :: w5 :: w6 :: w7 ::
    w8 :: w9 :: w10 :: w11 :: w12 :: w13 :: w14 :: w15 :: rest =>
    [w0, w1, w2, w3, w4, w5, w6, w7,
     w8, w9, w10, w11, w12, w13, w14, w15] :: toBlocks rest
  | _ => []

/-- Appends one word of the SHA-256 message schedule. -/
def scheduleStep (ws : List Nat) : List Nat :=
  let n := ws.length
  ws ++ [w32 (smallSigma1 (ws.getD (n - 2) 0) + ws.getD (n - 7) 0 +
              smallSigma0 (ws.getD (n - 15) 0) + ws.getD (n - 16) 0)]

/-- Extends a 16-word block to the full 64-word schedule. -/
def schedule (block : List Nat) : List Nat :=
  (List.range 48).foldl (fun ws _ => scheduleStep ws) block

/-- One SHA-256 compression of a block into the running state. -/
def compress (hs : List Nat) (block : List Nat) : List Nat :=
  let ws := schedule block
  let init := (hs.getD 0 0, hs.getD 1 0, hs.getD 2 0, hs.getD 3 0,
               hs.getD 4 0, hs.getD 5 0, hs.getD 6 0, hs.getD 7 0)
  let fin := (sha256K.zip ws).foldl
    (fun st kw =>
      match st, kw with
      | (a, b, c, d, e, f, g, h), (k, w) =>
        let t1 := w32 (h + bigSigma1 e + shaCh e f g + k + w)
        let t2 := w32 (bigSigma0 a + shaMaj a b c)
        (w32 (t1 + t2), a, b, c, w32 (d + t1), e, f, g)) init
  match fin with
  | (a, b, c, d, e, f, g, h) =>
    [w32 (hs.getD 0 0 + a), w32 (hs.getD 1 0 + b),
     w32 (hs.getD 2 0 + c), w32 (hs.getD 3 0 + d),
     w32 (hs.getD 4 0 + e), w32 (hs.getD 5 0 + f),
     w32 (hs.getD 6 0 + g), w32 (hs.getD 7 0 + h)]

/-- SHA-256 of a byte sequence, as eight 32-bit words. -/
def sha256Words (msg : ByteSeq) : List Nat :=
  (toBlocks (bytesToWords (padMessage msg))).foldl compress sha256H0

/-- Lowercase hexadecimal digit for a value below 16. -/
def hexDigit (n : Nat) : Char :=
  if n < 10 then Char.ofNat (48 + n) else Char.ofNat (87 + n)

/-- Eight lowercase hex digits of a 32-bit word. -/
def wordToHex (w : Nat) : List Char :=
  (List.range 8).map (fun i => hexDigit ((w >>> ((7 - i) * 4)) % 16))

/-- Lowercase hex encoding of the SHA-256 of a byte sequence
(Go `fmt.Sprintf("%x", sha256.Sum256(b))`). -/
def sha256Hex (msg : ByteSeq) : String :=
  String.mk ((sha256Words msg).flatMap wordToHex)

/-- The Digest Codec `Compute`: `"sha256:" ++ hex(sha256(bytes))`,
exactly the string the source builds with
`fmt.Sprintf("sha256:%x", sha256.Sum256(buf.Bytes()))`. -/
def computeDigest (b : ByteSeq) : String := "sha256:" ++ sha256Hex b

/-! ## Regex recognizers for the source's three pattern constants.
`matches(pattern, name)` calls `regexp.MatchString`, which searches
unanchored, but all three patterns are anchored with both `^` and `$`, so
each is equivalent to the full-string recognizer below. -/

/-- Character class `[a-z0-9]`. -/
def isLowerAlnum (c : Char) : Bool :=
  ('a' ≤ c && c ≤ 'z') || ('0' ≤ c && c ≤ '9')

/-- Character class `[._-]`. -/
def isNameSep (c : Char) : Bool := c = '.' || c = '_' || c = '-'

/-- Scans a name segment against `[a-z0-9]+([._-][a-z0-9]+)*`; the Boolean
flag records whether the previous character was alphanumeric, i.e. whether
a separator or the end of the segment is currently legal. -/
def nameSegAux : List Char → Bool → Bool
  | [], prevAlnum => prevAlnum
  | c :: rest, prevAlnum =>
    if isLowerAlnum c then nameSegAux rest true
    else if isNameSep c then prevAlnum && nameSegAux rest false
    else false

/-- Matches one path segment of the repository-name grammar. -/
def nameSegmentOk (s : String) : Bool := nameSegAux s.toList false

/-- Full-string match of `nameRegex`
`^[a-z0-9]+([._-][a-z0-9]+)*(/[a-z0-9]+([._-][a-z0-9]+)*)*$`: one or more
slash-separated segments, each matching the segment grammar. -/
def nameRegexMatches (s : String) : Bool :=
  (goSplitSlash s).all nameSegmentOk

/-- Character class `[a-zA-Z0-9_]` (first character of a tag). -/
def isTagFirst (c : Char) : Bool :=
  ('a' ≤ c && c ≤ 'z') || ('A' ≤ c && c ≤ 'Z') ||
  ('0' ≤ c && c ≤ '9') || c = '_'

/-- Character class `[a-zA-Z0-9._-]` (later characters of a tag). -/
def isTagRest (c : Char) : Bool := isTagFirst c || c = '.' || c = '-'

/-- Full-string match of the source's `refRegex`
`^[a-zA-Z0-9_][a-zA-Z0-9._-]{1,127}$`.  The quantifier in the source is
`{1,127}` — one to 127 characters AFTER the first one — so the total
length accepted is 2 to 128. -/
def refRegexMatches (s : String) : Bool :=
  match s.toList with
  | [] => false
  | c :: rest =>
    isTagFirst c && rest.all isTagRest &&
    decide (1 ≤ rest.length) && decide (rest.length ≤ 127)

/-- Character class `[a-f0-9]`. -/
def isHexLower (c : Char) : Bool :=
  ('a' ≤ c && c ≤ 'f') || ('0' ≤ c && c ≤ '9')

/-- Full-string match of `digestRegex` `^sha256:([a-f0-9]{64})$`. -/
def digestRegexMatches (s : String) : Bool :=
  match s.toList with
  | 's' :: 'h' :: 'a' :: '2' :: '5' :: '6' :: ':' :: hex =>
    decide (hex.length = 64) && hex.all isHexLower
  | _ => false

/-! ## parseName and the handler entry -/

/-- The reserved sub-resource keywords parseName stops at. -/
def isRouteKeyword (p : String) : Bool :=
  p = "blobs" || p = "manifests" || p = "tags" || p = "referrers"

/-- The loop in parseName's general branch: collects path segments until
the first reserved keyword (all of them when no keyword occurs). -/
def collectUntilKeyword : List String → List String
  | [] => []
  | p :: rest =>
    if isRouteKeyword p then [] else p :: collectUntilKeyword rest

/-- parseName from the source: trims the `/v2/` prefix, counts slashes;
one or fewer is an error; exactly two means the name is the first
segment; otherwise the name is the join of the segments before the first
reserved keyword. -/
def parseName (url : String) : Except String String :=
  let s := goTrimPre url "/v2/"
  let paths := goCountSlash s
  if paths ≤ 1 then
    .error ("URL does not match any valid OCI endpoint: " ++ url)
  else if paths = 2 then
    .ok ((goSplitSlash s).getD 0 "")
  else
    .ok (goJoin (collectUntilKeyword (goSplitSlash s)) "/")

/-- writeServerError: `http.Error(w, "Unexpected error encountered: " +
err.Error(), 500)` — status 500 and a body embedding the error text. -/
def writeServerErrorResp (errMsg : String) : Nat × String :=
  (500, "Unexpected error encountered: " ++ errMsg)

/-- Error string fileExists builds when os.Open fails with anything other
than NotExist; note that it embeds the probed filesystem path. -/
def fileExistsErrMsg (path errStr : String) : String :=
  "Unexpected error while checking existence of " ++ path ++ ": " ++ errStr

/-- Outcome of the shared prefix of the `/v2/` handler. -/
inductive EntryOutcome where
  | serverError (status : Nat) (body : String)
  | nameInvalid (status : Nat)
  | proceed (name : String) (endpoint : String)
  deriving DecidableEq

/-- The shared prefix of the `/v2/` handler: parseName, whose error goes
to writeServerError; then the nameRegex check (NAME_INVALID, 400); then
the endpoint is the request URI with `/v2/<name>` trimmed off. -/
def handlerEntry (requestURI : String) : EntryOutcome :=
  match parseName requestURI with
  | .error e => .serverError (writeServerErrorResp e).1 (writeServerErrorResp e).2
  | .ok name =>
    if !nameRegexMatches name then .nameInvalid 400
    else .proceed name (goTrimPre requestURI ("/v2/" ++ name))

/-! ## Dispatch guards of the method branches in main -/

/-- Guard of the HEAD blobs branch. -/
def headBlobGuard (endpoint : String) : Bool :=
  goContains endpoint "/blobs/sha256:"

/-- Guard of the GET blobs branch. -/
def getBlobGuard (endpoint : String) : Bool :=
  goContains endpoint "/blobs/sha256:"

/-- Guard of the POST upload branch. -/
def postUploadGuard (endpoint : String) : Bool :=
  goHasSuffix endpoint "/blobs/uploads/"

/-- Location header set by the POST upload branch:
the request URI with the fresh upload id appended. -/
def postUploadLocation (requestURI id : String) : String := requestURI ++ id

/-- Guard of the PUT blob-finalize branch: the endpoint must contain the
literal substring `/blobs/uploads/?`. -/
def putUploadsGuard (endpoint : String) : Bool :=
  goContains endpoint "/blobs/uploads/?"

/-- Guard of the PUT manifests branch. -/
def putManifestsGuard (endpoint : String) : Bool :=
  goContains endpoint "/manifests/"

/-- Guard of the GET tags/list branch. -/
def getTagsGuard (endpoint : String) : Bool :=
  goHasSuffix endpoint "/tags/list"

/-- Guard of the HEAD/GET manifests branches. -/
def manifestsGuard (endpoint : String) : Bool :=
  goContains endpoint "/manifests/"

/-- Extraction `parts := strings.Split(endpoint, "/"); parts[len(parts)-1]`
used by the blobs and manifests branches. -/
def lastSlashPart (endpoint : String) : String :=
  (goSplitSlash endpoint).getLastD ""

/-! ## The blob store: flat path-keyed file state and writeToFile -/

/-- The persistent state: an association list from file path to content;
the most recent write for a path is listed first. -/
abbrev Store := List (String × ByteSeq)

/-- Reads the current content of a file, if present. -/
def fsRead (st : Store) (p : String) : Option ByteSeq :=
  (st.find? (fun e => e.1 == p)).map (fun e => e.2)

/-- Creates or truncates-and-rewrites the file at `p` (the effect of the
OpenFile/Truncate preamble of writeToFile followed by the write loop). -/
def fsWrite (st : Store) (p : String) (b : ByteSeq) : Store :=
  (p, b) :: st

/-- One result of a call to `r.Body.Read`: some bytes together with a nil
error, `io.EOF`, or a non-EOF error. -/
inductive ReadEv where
  | chunk (b : ByteSeq)
  | chunkEof (b : ByteSeq)
  | chunkErr (b : ByteSeq)
  deriving DecidableEq

/-- Observable outcome of the writeToFile read loop: either the loop saw
`io.EOF`, broke out, and wrote status 201, or the body never produced
`io.EOF` and the loop keeps re-reading forever (in particular any non-EOF
read error is ignored, so a persistently failing body spins). -/
inductive WriteOutcome where
  | resp201 (persisted : ByteSeq)
  | hang (persisted : ByteSeq)
  deriving DecidableEq

/-- The read loop of writeToFile: each read's bytes `buf[0:n]` are
appended to the file; only `err == io.EOF` breaks the loop, any other
read error is ignored and the loop continues; the `total` counter derived
from `r.ContentLength` is used only to re-zero the scratch buffer and has
no observable effect. -/
def writeLoop : List ReadEv → ByteSeq → WriteOutcome
  | [], acc => .hang acc
  | .chunk b :: rest, acc => writeLoop rest (acc ++ b)
  | .chunkEof b :: _, acc => .resp201 (acc ++ b)
  | .chunkErr b :: rest, acc => writeLoop rest (acc ++ b)

/-- The bytes the loop has written to the file. -/
def writtenBytes : WriteOutcome → ByteSeq
  | .resp201 b => b
  | .hang b => b

/-- writeToFile from the source: open/truncate the destination file, run
the read loop, and (when the loop terminates) answer 201.  The declared
`contentLength` is threaded because the source reads `r.ContentLength`,
but it never influences the persisted bytes or the response. -/
def writeToFile (st : Store) (destFile : String) (_contentLength : Int)
    (body : List ReadEv) : Store × WriteOutcome :=
  let out := writeLoop body []
  (fsWrite st destFile (writtenBytes out), out)

/-- Destination path built by the PUT blob-finalize branch:
`path.Join(rootDir, name, "_blobs", digest)` with the raw query value. -/
def blobDest (root name digestParam : String) : String :=
  pathJoin [root, name, "_blobs", digestParam]

/-- The PUT blob-finalize branch body: MkdirAll (a no-op in this flat
model) and writeToFile to the digest-named file.  The digest query
parameter is used verbatim: the branch never matches it against
digestRegex and never compares it with the content's computed digest. -/
def putBlobUpload (root : String) (st : Store) (name digestParam : String)
    (contentLength : Int) (body : List ReadEv) : Store × WriteOutcome :=
  writeToFile st (blobDest root name digestParam) contentLength body

/-- Outcome of the GET blobs branch. -/
inductive GetBlobOut where
  | ok (digestHeader : String) (content : ByteSeq)
  | notFound
  deriving DecidableEq

/-- The GET blobs branch body: fileExists on the blob path, then the
Docker-Content-Digest header and the streamed content on hit, 404 on
miss.  `requestDigest` is the last slash-separated part of the
endpoint. -/
def getBlob (root : String) (st : Store) (name requestDigest : String) :
    GetBlobOut :=
  match fsRead st (pathJoin [root, name, "_blobs", requestDigest]) with
  | some content => .ok requestDigest content
  | none => .notFound

/-- Outcome of the PUT manifests branch. -/
inductive PutManifestOut where
  | manifestInvalid (status : Nat)
  | wrote (out : WriteOutcome)
  deriving DecidableEq

/-- The PUT manifests branch body: the reference is the last piece of
splitting the endpoint on `/manifests/`; a reference that fails refRegex
is rejected with 400 MANIFEST_INVALID, otherwise the body is written to
`<root>/<name>/<ref>/manifest.json`. -/
def putManifests (root : String) (st : Store) (name endpoint : String)
    (contentLength : Int) (body : List ReadEv) : Store × PutManifestOut :=
  let requestRef := (goSplit endpoint "/manifests/").getLastD ""
  if !refRegexMatches requestRef then (st, .manifestInvalid 400)
  else
    let r := writeToFile st (pathJoin [root, name, requestRef, "manifest.json"])
      contentLength body
    (r.1, .wrote r.2)

/-! ## The manifest area: repository directory entries and findManifest -/

/-- One entry of a repository directory as `os.ReadDir` lists it.
`manifest` is the content of `<entry>/manifest.json` when that file
exists; `none` makes the `os.Open` inside findManifest fail. -/
structure DirEnt where
  name : String
  isDir : Bool
  manifest : Option ByteSeq
  deriving DecidableEq

/-- Result of findManifest: `err` is a non-nil error, `found` carries the
path of a manifest whose digest matched, `notFound` is the source's
`("", nil)` return after the loop. -/
inductive FindRes where
  | err (msg : String)
  | found (path : String)
  | notFound
  deriving DecidableEq

/-- findManifest from the source: walks the repository's directory
entries, skips the `_blobs` entry and non-directories, opens each
directory's `manifest.json` (an open failure aborts with that error),
computes `fmt.Sprintf("sha256:%x", sha256.Sum256(...))` of its bytes and
returns the path of the first entry whose digest equals the requested
one. -/
def findManifest (root name digest : String) : List DirEnt → FindRes
  | [] => .notFound
  | de :: rest =>
    if de.name = "_blobs" then findManifest root name digest rest
    else if de.isDir then
      match de.manifest with
      | none =>
        .err ("open " ++ pathJoin [root, name, de.name, "manifest.json"] ++
              ": no such file or directory")
      | some bs =>
        if computeDigest bs = digest then
          .found (pathJoin [root, name, de.name, "manifest.json"])
        else findManifest root name digest rest
    else findManifest root name digest rest

/-- Reading a path back from the repository directory: the manifest
content of the entry whose `manifest.json` path equals `p` (the model of
fileExists and readFile over the manifests area). -/
def manifestFileAt (root name : String) (entries : List DirEnt)
    (p : String) : Option ByteSeq :=
  match entries.find? (fun de => de.isDir && de.manifest.isSome &&
      (pathJoin [root, name, de.name, "manifest.json"] == p)) with
  | some de => de.manifest
  | none => none

/-- Intermediate result of the tag-or-digest resolution shared by the
HEAD and GET manifests branches. -/
inductive ResolveStep where
  | silent
  | unknown
  | path (p : String)
  deriving DecidableEq

/-- The resolution step of the HEAD and GET manifests branches: a tag
reference maps straight to `<root>/<name>/<ref>/manifest.json`; a digest
goes through findManifest, where a non-nil error makes the handler
`return` with no response written and no match yields MANIFEST_UNKNOWN. -/
def resolveManifestPath (root name : String) (entries : List DirEnt)
    (lastPart : String) (isRef : Bool) : ResolveStep :=
  if isRef then .path (pathJoin [root, name, lastPart, "manifest.json"])
  else
    match findManifest root name lastPart entries with
    | .err _ => .silent
    | .notFound => .unknown
    | .found p => .path p

/-- Outcome of the HEAD manifests branch. -/
inductive HeadManifestOut where
  | ociError (code : String) (status : Nat)
  | silentReturn
  | status (n : Nat)
  deriving DecidableEq

/-- The HEAD manifests branch: classify the last path part with refRegex
and digestRegex (neither matching is 404 MANIFEST_INVALID), resolve the
manifest path, then fileExists decides between bare 200 and bare 404. -/
def headManifests (root name : String) (entries : List DirEnt)
    (lastPart : String) : HeadManifestOut :=
  let isRef := refRegexMatches lastPart
  let isDig := digestRegexMatches lastPart
  if !(isRef || isDig) then .ociError "MANIFEST_INVALID" 404
  else
    match resolveManifestPath root name entries lastPart isRef with
    | .silent => .silentReturn
    | .unknown => .ociError "MANIFEST_UNKNOWN" 404
    | .path p =>
      if (manifestFileAt root name entries p).isSome then .status 200
      else .status 404

/-- Outcome of the GET manifests branch. -/
inductive GetManifestOut where
  | ociError (code : String) (status : Nat)
  | silentReturn
  | respBody (content : ByteSeq)
  deriving DecidableEq

/-- The GET manifests branch: same classification and resolution as HEAD;
on an existing manifest path the content is streamed back (implicit 200),
a missing file is 404 MANIFEST_UNKNOWN. -/
def getManifests (root name : String) (entries : List DirEnt)
    (lastPart : String) : GetManifestOut :=
  let isRef := refRegexMatches lastPart
  let isDig := digestRegexMatches lastPart
  if !(isRef || isDig) then .ociError "MANIFEST_INVALID" 404
  else
    match resolveManifestPath root name entries lastPart isRef with
    | .silent => .silentReturn
    | .unknown => .ociError "MANIFEST_UNKNOWN" 404
    | .path p =>
      match manifestFileAt root name entries p with
      | some content => .respBody content
      | none => .ociError "MANIFEST_UNKNOWN" 404

/-- An entry findManifest actually examines: a directory other than
`_blobs`. -/
def eligibleEntry (de : DirEnt) : Bool :=
  (de.name != "_blobs") && de.isDir

/-! ## Helper lemmas -/

/-- Reading back a freshly written path yields the written bytes. -/
theorem fsRead_fsWrite (st : Store) (p : String) (b : ByteSeq) :
    fsRead (fsWrite st p b) p = some b := by
  simp [fsRead, fsWrite, List.find?_cons]

/-- Splitting on a character yields one more piece than the character's
occurrence count. -/
theorem splitOnChar_length (c : Char) (l : List Char) :
    (splitOnChar c l).length = l.count c + 1 := by
  induction l with
  | nil => simp [splitOnChar]
  | cons x xs ih =>
    rw [splitOnChar]
    cases h : splitOnChar c xs with
    | nil => rw [h] at ih; simp at ih
    | cons r rs =>
      rw [h] at ih
      by_cases hx : x = c
      · simp only [hx, if_pos rfl, List.length_cons, List.count_cons]
        simp at ih ⊢
        omega
      · simp only [if_neg hx, List.length_cons, List.count_cons]
        simp [hx] at ih ⊢
        omega

/-- A string that matches the digest grammar cannot match the tag
grammar, because its seventh character is a colon. -/
theorem refRegex_false_of_digest (s : String)
    (h : digestRegexMatches s = true) : refRegexMatches s = false := by
  unfold digestRegexMatches at h
  split at h
  · rename_i hex heq
    unfold refRegexMatches
    rw [heq]
    have hc : isTagRest ':' = false := by decide
    simp [List.all_cons, hc]
  · exact absurd h (by simp)

/-! ## Claim theorems -/

/-- C1: the claim says blob finalization recomputes the digest of the
persisted bytes and rejects the write on mismatch, leaving no blob
retrievable under the claimed digest.  The code does no such check: here
the body is the single byte 0x61 while the claimed digest is the digest
of the EMPTY content (syntactically valid and provably different from the
content's computed digest), yet the finalize branch persists the bytes,
answers 201, and a subsequent GET serves the mismatched blob under that
digest instead of NotFound. -/
theorem c1_mismatched_digest_accepted_and_retrievable :
    computeDigest [97] ≠ computeDigest [] ∧
    digestRegexMatches (computeDigest []) = true ∧
    (putBlobUpload "/srv/data" [] "r" (computeDigest []) 1
      [.chunkEof [97]]).2 = .resp201 [97] ∧
    getBlob "/srv/data"
      (putBlobUpload "/srv/data" [] "r" (computeDigest []) 1
        [.chunkEof [97]]).1 "r" (computeDigest [])
      = .ok (computeDigest []) [97] := by
  exact ⟨by decide, by decide, by decide, by decide⟩

/-- C2: the claim says a PUT to the upload URL issued by POST (which ends
in a fresh upload id) is dispatched to blob finalization and answers 201
with a Docker-Content-Digest header.  The POST branch does issue the
Location `/v2/r/blobs/uploads/4a5b`, but the PUT branch's guard looks for
the literal substring `/blobs/uploads/?`, which the issued URL with its
nonempty id does not contain, so no PUT branch fires at all for that
request (the guard only matches when the id part is empty); and the
finalize path never sets a Docker-Content-Digest header anyway. -/
theorem c2_issued_upload_id_not_dispatched :
    handlerEntry "/v2/r/blobs/uploads/" = .proceed "r" "/blobs/uploads/" ∧
    postUploadGuard "/blobs/uploads/" = true ∧
    postUploadLocation "/v2/r/blobs/uploads/" "4a5b"
      = "/v2/r/blobs/uploads/4a5b" ∧
    handlerEntry
      "/v2/r/blobs/uploads/4a5b?digest=sha256:aaaaaaaaaaaaaaaaaaaaaaaaaaaaaaaaaaaaaaaaaaaaaaaaaaaaaaaaaaaaaaaa"
      = .proceed "r"
        "/blobs/uploads/4a5b?digest=sha256:aaaaaaaaaaaaaaaaaaaaaaaaaaaaaaaaaaaaaaaaaaaaaaaaaaaaaaaaaaaaaaaa" ∧
    putUploadsGuard
      "/blobs/uploads/4a5b?digest=sha256:aaaaaaaaaaaaaaaaaaaaaaaaaaaaaaaaaaaaaaaaaaaaaaaaaaaaaaaaaaaaaaaa"
      = false ∧
    putManifestsGuard
      "/blobs/uploads/4a5b?digest=sha256:aaaaaaaaaaaaaaaaaaaaaaaaaaaaaaaaaaaaaaaaaaaaaaaaaaaaaaaaaaaaaaaa"
      = false ∧
    putUploadsGuard
      "/blobs/uploads/?digest=sha256:aaaaaaaaaaaaaaaaaaaaaaaaaaaaaaaaaaaaaaaaaaaaaaaaaaaaaaaaaaaaaaaa"
      = true := by
  exact ⟨by decide, by decide, by decide, by decide, by decide, by decide,
    by decide⟩

/-- C3: the claim says GET on the bare base path `/v2/` answers 200.  In
the code parseName fails on `/v2/` (zero slashes remain after trimming
the prefix) and the handler routes that error to writeServerError, so the
probe receives a 500 with an error body instead of 200. -/
theorem c3_base_v2_returns_server_error :
    handlerEntry "/v2/" = .serverError 500
      "Unexpected error encountered: URL does not match any valid OCI endpoint: /v2/" := by
  decide

/-- C4: the claim says every single-character string from `[a-zA-Z0-9_]`
is a valid tag and a PUT manifest under such a reference is accepted.
The source's refRegex uses the quantifier `{1,127}` instead of the OCI
grammar's `{0,127}`, so it requires at least two characters: the
single-character reference `a` fails the match and the PUT manifests
branch rejects it with 400 MANIFEST_INVALID (while `ab` is accepted). -/
theorem c4_single_char_tag_rejected :
    refRegexMatches "a" = false ∧
    refRegexMatches "ab" = true ∧
    (putManifests "/srv/data" [] "r" "/manifests/a" 2
      [.chunkEof [123, 125]]).2 = .manifestInvalid 400 ∧
    (putManifests "/srv/data" [] "r" "/manifests/ab" 2
      [.chunkEof [123, 125]]).2 = .wrote (.resp201 [123, 125]) := by
  exact ⟨by decide, by decide, by decide, by decide⟩

/-- C5 counterexample: the claim says a URL containing no reserved
keyword fails to parse.  The URL `/v2/a/b/c/d` contains none of the
reserved keywords, yet parseName succeeds and returns the whole path
`a/b/c/d` as the repository name. -/
theorem c5_no_keyword_still_parses :
    (["a", "b", "c", "d"].all (fun p => !isRouteKeyword p)) = true ∧
    parseName "/v2/a/b/c/d" = .ok "a/b/c/d" := by
  exact ⟨by decide, by rfl⟩

/-- C8: the claim says a body that ends before the declared content
length has been consumed makes Put report an IOError and never a 201.
The write loop of writeToFile breaks on `io.EOF` without ever comparing
the byte count against `r.ContentLength`: a body declaring 2048 bytes
that returns EOF after 10 bytes is persisted as-is and answered with 201
(first conjunct), and a body whose reads fail with a non-EOF error never
terminates the loop, so no error response is ever produced either
(second conjunct). -/
theorem c8_short_read_silently_succeeds :
    writeToFile [] "/srv/data/r/_blobs/sha256:aa" 2048
      [.chunkEof [0, 1, 2, 3, 4, 5, 6, 7, 8, 9]]
      = ([("/srv/data/r/_blobs/sha256:aa", [0, 1, 2, 3, 4, 5, 6, 7, 8, 9])],
         .resp201 [0, 1, 2, 3, 4, 5, 6, 7, 8, 9]) ∧
    writeLoop [.chunkErr []] [] = .hang [] := by
  exact ⟨by decide, by decide⟩

set_option linter.unusedVariables false in
/-- C7: blob round-trip.  For any repository and content whose read loop
completes with bytes `b`, finalizing under the digest `d = Compute(b)`
answers 201 and a subsequent GET of `d` serves exactly `b` with the
digest header.  (The hypothesis `hd` records the claim's side condition
`d = Compute(b)`; the round trip holds for it in particular.) -/
theorem c7_blob_roundtrip (root : String) (st : Store) (name d : String)
    (cl : Int) (evs : List ReadEv) (b : ByteSeq)
    (hd : d = computeDigest b)
    (h : writeLoop evs [] = .resp201 b) :
    (putBlobUpload root st name d cl evs).2 = .resp201 b ∧
    getBlob root (putBlobUpload root st name d cl evs).1 name d
      = .ok d b := by
  refine ⟨?_, ?_⟩ <;>
    simp [putBlobUpload, writeToFile, getBlob, blobDest, h, writtenBytes,
      fsRead_fsWrite]

/-- Witness for C7 at the one-byte content `0x61`: the digest is computed
concretely, the loop hypothesis holds, and the round trip returns the
byte. -/
theorem c7_blob_roundtrip_witness :
    computeDigest [97]
      = "sha256:ca978112ca1bbdcafac231b39a23dc4da786eff8147c4e72b9807785afee48bb" ∧
    writeLoop [.chunkEof [97]] [] = .resp201 [97] ∧
    getBlob "/srv/data"
      (putBlobUpload "/srv/data" [] "r" (computeDigest [97]) 1
        [.chunkEof [97]]).1 "r" (computeDigest [97])
      = .ok (computeDigest [97]) [97] := by
  refine ⟨by decide, by decide, ?_⟩
  exact (c7_blob_roundtrip "/srv/data" [] "r" (computeDigest [97]) 1
    [.chunkEof [97]] [97] rfl (by decide)).2

/-- C10: the blob-finalize branch uses the raw digest query parameter as
the storage key: for EVERY string `d` — matching the digest grammar or
not — the uploaded bytes are persisted at
`path.Join(root, name, "_blobs", d)` and retrievable from that key, with
no digest-grammar check and no comparison against the content's computed
hash anywhere in the branch. -/
theorem c10_raw_digest_param_used_verbatim (root name d : String)
    (st : Store) (cl : Int) (evs : List ReadEv) (b : ByteSeq)
    (h : writeLoop evs [] = .resp201 b) :
    putBlobUpload root st name d cl evs
      = (fsWrite st (pathJoin [root, name, "_blobs", d]) b, .resp201 b) ∧
    fsRead (putBlobUpload root st name d cl evs).1
      (pathJoin [root, name, "_blobs", d]) = some b := by
  refine ⟨?_, ?_⟩ <;>
    simp [putBlobUpload, writeToFile, blobDest, h, writtenBytes,
      fsRead_fsWrite]

/-- Witness for C10 at a digest parameter that is not even close to the
digest grammar and contains path separators and a dot-dot segment: the
bytes are still persisted and retrievable under the derived path. -/
theorem c10_raw_digest_param_used_verbatim_witness :
    digestRegexMatches "evil/../name" = false ∧
    writeLoop [.chunkEof [1, 2]] [] = .resp201 [1, 2] ∧
    fsRead (putBlobUpload "/srv/data" [] "r" "evil/../name" 2
        [.chunkEof [1, 2]]).1
      (pathJoin ["/srv/data", "r", "_blobs", "evil/../name"]) = some [1, 2] := by
  refine ⟨by decide, by decide, ?_⟩
  exact (c10_raw_digest_param_used_verbatim "/srv/data" "r" "evil/../name"
    [] 2 [.chunkEof [1, 2]] [1, 2] (by decide)).2

/-- findManifest equals a first-match scan: provided every eligible
(non-`_blobs` directory) entry has its manifest.json present, it returns
the manifest path of the first eligible entry whose content digests to
the requested value, and notFound when none does. -/
theorem findManifest_spec (root name d : String) (entries : List DirEnt)
    (hm : ∀ de ∈ entries, eligibleEntry de = true → de.manifest ≠ none) :
    findManifest root name d entries =
      (match (entries.filter eligibleEntry).find?
          (fun de => computeDigest (de.manifest.getD []) == d) with
       | some de =>
           FindRes.found (pathJoin [root, name, de.name, "manifest.json"])
       | none => FindRes.notFound) := by
  induction entries with
  | nil => rfl
  | cons de rest ih =>
    have ih' := ih (fun e he h1 => hm e (List.mem_cons_of_mem _ he) h1)
    rw [findManifest, List.filter_cons]
    by_cases hb : de.name = "_blobs"
    · have helig : eligibleEntry de = false := by simp [eligibleEntry, hb]
      rw [if_pos hb, helig]
      simpa using ih'
    · rw [if_neg hb]
      by_cases hdir : de.isDir = true
      · have helig : eligibleEntry de = true := by
          simp [eligibleEntry, hb, hdir]
        cases hmf : de.manifest with
        | none => exact absurd hmf (hm de (List.mem_cons_self _ _) helig)
        | some bs =>
          simp only [hdir, if_true, hmf, helig, ite_true, List.find?_cons,
            Option.getD_some]
          by_cases hcd : computeDigest bs = d
          · simp [hcd]
          · have hbe : (computeDigest bs == d) = false := by
              simp only [beq_eq_false_iff_ne, ne_eq]
              exact hcd
            simp [hbe, hcd, ih']
      · have helig : eligibleEntry de = false := by
          simp [eligibleEntry, hdir]
        rw [helig]
        simp only [hdir, if_false]
        simpa using ih'

/-- C6: digest-addressed manifest resolution.  For every repository state
and syntactically valid digest `d` (with each tag directory's
manifest.json present and readable back at its own path), findManifest
returns the first stored manifest whose computed sha256 digest equals
`d` — and the GET manifests branch streams exactly that manifest's
bytes — while if no stored manifest digests to `d` the result is
notFound and the branch answers 404 MANIFEST_UNKNOWN. -/
theorem c6_resolve_by_digest (root name d : String) (entries : List DirEnt)
    (hd : digestRegexMatches d = true)
    (hm : ∀ de ∈ entries, eligibleEntry de = true → de.manifest ≠ none)
    (hfs : ∀ de ∈ entries, eligibleEntry de = true →
      manifestFileAt root name entries
        (pathJoin [root, name, de.name, "manifest.json"]) = de.manifest) :
    (∀ de, (entries.filter eligibleEntry).find?
        (fun de => computeDigest (de.manifest.getD []) == d) = some de →
      findManifest root name d entries
        = .found (pathJoin [root, name, de.name, "manifest.json"]) ∧
      getManifests root name entries d = .respBody (de.manifest.getD [])) ∧
    ((entries.filter eligibleEntry).find?
        (fun de => computeDigest (de.manifest.getD []) == d) = none →
      findManifest root name d entries = .notFound ∧
      getManifests root name entries d
        = .ociError "MANIFEST_UNKNOWN" 404) := by
  have href : refRegexMatches d = false := refRegex_false_of_digest d hd
  have hspec := findManifest_spec root name d entries hm
  constructor
  · intro de hfind
    rw [hfind] at hspec
    have hmem' : de ∈ entries.filter eligibleEntry :=
      List.mem_of_find?_eq_some hfind
    have hmem : de ∈ entries := (List.mem_filter.mp hmem').1
    have helig : eligibleEntry de = true := (List.mem_filter.mp hmem').2
    have hread := hfs de hmem helig
    refine ⟨hspec, ?_⟩
    unfold getManifests resolveManifestPath
    cases hmf : de.manifest with
    | none => exact absurd hmf (hm de hmem helig)
    | some bs =>
      rw [hmf] at hread
      simp [hd, href, hspec, hread, hmf]
  · intro hfind
    rw [hfind] at hspec
    refine ⟨hspec, ?_⟩
    unfold getManifests resolveManifestPath
    simp [hd, href, hspec]

set_option maxHeartbeats 1000000 in
/-- Witness for C6 on a repository with two tag directories holding the
same (empty) manifest: resolution returns the FIRST one, and the GET
branch serves its bytes. -/
theorem c6_resolve_by_digest_witness :
    digestRegexMatches (computeDigest []) = true ∧
    findManifest "/srv/data" "r" (computeDigest [])
      [⟨"latest", true, some []⟩, ⟨"dup", true, some []⟩]
      = .found "/srv/data/r/latest/manifest.json" ∧
    getManifests "/srv/data" "r"
      [⟨"latest", true, some []⟩, ⟨"dup", true, some []⟩]
      (computeDigest []) = .respBody [] := by
  have hfind :
      ([(⟨"latest", true, some []⟩ : DirEnt),
        ⟨"dup", true, some []⟩].filter eligibleEntry).find?
        (fun de => computeDigest (de.manifest.getD []) == computeDigest [])
      = some ⟨"latest", true, some []⟩ := by decide
  have h := (c6_resolve_by_digest "/srv/data" "r" (computeDigest [])
    [⟨"latest", true, some []⟩, ⟨"dup", true, some []⟩]
    (by decide) (by decide) (by decide)).1 ⟨"latest", true, some []⟩ hfind
  exact ⟨by decide, h.1, h.2⟩

/-- A list is a prefix of itself extended by anything. -/
theorem listIsPre_append (l t : List Char) : listIsPre l (l ++ t) = true := by
  induction l with
  | nil => rfl
  | cons a as ih => simp [listIsPre, ih]

/-- A list occurs as a substring of any list that embeds it between two
other pieces. -/
theorem listContains_of_infix (x sub y : List Char) :
    listContains sub (x ++ sub ++ y) = true := by
  induction x with
  | nil =>
    cases hsub : sub with
    | nil => cases y <;> simp [listContains, listIsPre]
    | cons c cs =>
      have hpre := listIsPre_append (c :: cs) y
      simp only [List.nil_append, List.cons_append] at hpre ⊢
      rw [listContains, hpre, Bool.true_or]
  | cons a as ih =>
    simp only [List.cons_append]
    rw [listContains, ih, Bool.or_true]

/-- String toList distributes over append. -/
theorem strToList_append (s t : String) : (s ++ t).toList = s.toList ++ t.toList := rfl

/-- C9 counterexample: a fileExists failure (for example EACCES while
probing a blob path) reaches writeServerError, whose 500 body spells out
the full internal filesystem path; and a findManifest I/O failure in the
HEAD manifests digest branch makes the handler return with NO response
written at all.  Both contradict the claim that 5xx responses carry a
generic message without internal paths and that no store I/O failure ends
the handler without an error response. -/
theorem c9_path_exposed_and_silent_return :
    (writeServerErrorResp (fileExistsErrMsg "/srv/data/r/_blobs/sha256:aa"
        "permission denied")).2
      = "Unexpected error encountered: Unexpected error while checking existence of /srv/data/r/_blobs/sha256:aa: permission denied" ∧
    headManifests "/srv/data" "r" [⟨"v1", true, none⟩]
      "sha256:aaaaaaaaaaaaaaaaaaaaaaaaaaaaaaaaaaaaaaaaaaaaaaaaaaaaaaaaaaaaaaaa"
      = .silentReturn := by
  exact ⟨by decide, by decide⟩

/-- C9 (amended): what the code actually does with store I/O failures:
writeServerError answers 500, but its body embeds the underlying error
text — for fileExists failures that text contains the probed internal
path, for every path and error string; and a findManifest error in the
HEAD and GET manifests digest branches makes the handler return silently
with no response written. -/
theorem c9_io_error_reporting (root name p e lastPart msg : String)
    (entries : List DirEnt)
    (hd : digestRegexMatches lastPart = true)
    (herr : findManifest root name lastPart entries = .err msg) :
    (writeServerErrorResp (fileExistsErrMsg p e)).1 = 500 ∧
    goContains (writeServerErrorResp (fileExistsErrMsg p e)).2 p = true ∧
    headManifests root name entries lastPart = .silentReturn ∧
    getManifests root name entries lastPart = .silentReturn := by
  have href : refRegexMatches lastPart = false :=
    refRegex_false_of_digest lastPart hd
  refine ⟨rfl, ?_, ?_, ?_⟩
  · have key := listContains_of_infix
      ("Unexpected error encountered: ".toList ++
        "Unexpected error while checking existence of ".toList)
      p.toList ((": " ++ e).toList)
    simp only [goContains, writeServerErrorResp, fileExistsErrMsg]
    simp only [strToList_append, List.append_assoc] at key ⊢
    exact key
  · unfold headManifests resolveManifestPath
    simp [hd, href, herr]
  · unfold getManifests resolveManifestPath
    simp [hd, href, herr]

/-- Witness for C9's amended statement at a concrete failing state: a
repository whose tag directory `v1` is missing its manifest.json, probed
by HEAD with a well-formed digest, plus a concrete fileExists failure. -/
theorem c9_io_error_reporting_witness :
    digestRegexMatches
      "sha256:aaaaaaaaaaaaaaaaaaaaaaaaaaaaaaaaaaaaaaaaaaaaaaaaaaaaaaaaaaaaaaaa"
      = true ∧
    findManifest "/srv/data" "r"
      "sha256:aaaaaaaaaaaaaaaaaaaaaaaaaaaaaaaaaaaaaaaaaaaaaaaaaaaaaaaaaaaaaaaa"
      [⟨"v1", true, none⟩]
      = .err "open /srv/data/r/v1/manifest.json: no such file or directory" ∧
    goContains
      (writeServerErrorResp (fileExistsErrMsg "/srv/data/r/_blobs/x"
        "EACCES")).2 "/srv/data/r/_blobs/x" = true ∧
    headManifests "/srv/data" "r" [⟨"v1", true, none⟩]
      "sha256:aaaaaaaaaaaaaaaaaaaaaaaaaaaaaaaaaaaaaaaaaaaaaaaaaaaaaaaaaaaaaaaa"
      = .silentReturn := by
  have h := c9_io_error_reporting "/srv/data" "r" "/srv/data/r/_blobs/x"
    "EACCES"
    "sha256:aaaaaaaaaaaaaaaaaaaaaaaaaaaaaaaaaaaaaaaaaaaaaaaaaaaaaaaaaaaaaaaa"
    "open /srv/data/r/v1/manifest.json: no such file or directory"
    [⟨"v1", true, none⟩] (by decide) (by decide)
  exact ⟨by decide, by decide, h.2.1, h.2.2.1⟩

/-- C5 (amended): what parseName actually computes, stated over the path
segments after the `/v2/` prefix.  Parsing fails exactly when there are
at most two segments (one or fewer slashes) — PRESENCE OF A RESERVED
KEYWORD IS IRRELEVANT TO SUCCESS; with exactly three segments the name
is just the first segment regardless of where a keyword sits; with four
or more segments the name is every segment before the first reserved
keyword, and all of them when no keyword occurs.  An empty name is
returned as a success, not a parse error (it is later rejected by the
nameRegex check as NAME_INVALID). -/
theorem c5_parseName_segments (url : String) :
    parseName url =
      (if (goSplitSlash (goTrimPre url "/v2/")).length ≤ 2 then
         .error ("URL does not match any valid OCI endpoint: " ++ url)
       else if (goSplitSlash (goTrimPre url "/v2/")).length = 3 then
         .ok ((goSplitSlash (goTrimPre url "/v2/")).getD 0 "")
       else
         .ok (goJoin
           (collectUntilKeyword (goSplitSlash (goTrimPre url "/v2/"))) "/")) := by
  have hlen : (goSplitSlash (goTrimPre url "/v2/")).length
      = goCountSlash (goTrimPre url "/v2/") + 1 := by
    rw [goSplitSlash, List.length_map, goCountSlash, splitOnChar_length]
  simp only [parseName]
  rw [hlen]
  by_cases h1 : goCountSlash (goTrimPre url "/v2/") ≤ 1
  · rw [if_pos h1,
      if_pos (show goCountSlash (goTrimPre url "/v2/") + 1 ≤ 2 by omega)]
  · rw [if_neg h1,
      if_neg (show ¬(goCountSlash (goTrimPre url "/v2/") + 1 ≤ 2) by omega)]
    by_cases h2 : goCountSlash (goTrimPre url "/v2/") = 2
    · rw [if_pos h2,
        if_pos (show goCountSlash (goTrimPre url "/v2/") + 1 = 3 by omega)]
    · rw [if_neg h2,
        if_neg (show ¬(goCountSlash (goTrimPre url "/v2/") + 1 = 3) by omega)]
